/-
Verification of the lingo-guardian Overflow Detection & Source-Attribution
Engine against its natural-language specification.

The definitions below are a shallow embedding of the TypeScript sources:
  - packages/cli/src/core/auditor.ts        (overflow detection, selector synthesis)
  - packages/cli/src/transforms/pseudo-locale.ts
  - packages/cli/src/transforms/rtl.ts
  - packages/cli/src/core/source-finder.ts
  - core/translation-mapper.ts              (TranslationMapper)
  - commands/lint.ts                        (deduplicateResults)

Modelling conventions:
  - JavaScript integer-valued DOM geometry (scrollWidth, offsetWidth, ...) is
    modelled as Int; getBoundingClientRect dimensions (floats compared only
    with 0) as Rat.
  - JavaScript strings are modelled as Lean String (sequences of code points);
    `str.length` (UTF-16 units) is modelled by utf16Length.
  - `String.prototype.toLowerCase` is modelled on the ASCII range
    (Char.toLower), which covers every string the program compares.
  - JavaScript `Map` (insertion-ordered, set-in-place) is modelled as an
    association list with the update function jsMapSet.
  - `Array.prototype.indexOf` on DOM nodes compares object identity; since
    distinct DOM nodes are distinct objects, it is modelled positionally.
-/
import Mathlib

namespace LingoGuardian

/-! ## Shared severity type (constants.ts `Severity`) -/

inductive Severity where
  | error
  | warning
  | info
deriving DecidableEq, Repr

/-! ## Overflow predicates and severity thresholds (auditor.ts, detectOverflows) -/

/-- auditor.ts line 239: `scrollWidth > offsetWidth + 1`. -/
def hasHorizontalOverflow (scrollWidth offsetWidth : Int) : Bool :=
  scrollWidth > offsetWidth + 1

/-- auditor.ts line 240: `scrollHeight > offsetHeight + 1`. -/
def hasVerticalOverflow (scrollHeight offsetHeight : Int) : Bool :=
  scrollHeight > offsetHeight + 1

/-- auditor.ts lines 256-263: map the overflow amount to a severity with
strict `>` thresholds. -/
def severityOf (overflowAmount : Int) : Severity :=
  if overflowAmount > 50 then .error
  else if overflowAmount > 20 then .warning
  else .info

/-! ## RTL locale classification (rtl.ts) -/

/-- ASCII model of `String.prototype.toLowerCase`, implemented over the code
point list so that it reduces inside the kernel. -/
def jsToLower (s : String) : String := String.mk (s.data.map Char.toLower)

namespace RTLTransform

/-- rtl.ts line 16: the fixed RTL locale list. -/
def RTL_LOCALES : List String := ["ar", "he", "fa", "ur", "yi", "ps", "sd", "ug"]

/-- rtl.ts line 23: `RTL_LOCALES.includes(locale.toLowerCase().split('-')[0])`.
The first element of `split('-')` is the run of characters before the first
hyphen (JavaScript `split` never returns an empty array: `"".split('-')` is
`[""]`, whose first element is the empty string, matching `takeWhile` on an
empty list). -/
def isRTL (locale : String) : Bool :=
  RTL_LOCALES.contains (String.mk ((jsToLower locale).data.takeWhile (fun c => c ≠ '-')))

end RTLTransform

/-! ## Selector synthesis (auditor.ts, generateSelector) -/

/-- The element data read by `generateSelector`: `tagName` (as exposed by the
DOM, typically upper case), `id` and `className` (absent attributes are the
empty string, which is exactly what the DOM reports and what the JavaScript
truthiness tests check). -/
structure ElemData where
  tag : String
  id : String
  className : String
deriving DecidableEq, Repr

/-- JavaScript whitespace as used by `trim` and `\s` for the ASCII range. -/
def isJsWs (c : Char) : Bool :=
  c = ' ' ∨ c = '\t' ∨ c = '\n' ∨ c = '\r' ∨ c = '\x0b' ∨ c = '\x0c'

/-- `String.prototype.trim`, implemented structurally. -/
def jsTrim (s : String) : String :=
  String.mk (((s.data.dropWhile isJsWs).reverse.dropWhile isJsWs).reverse)

/-- Split a list of characters at runs of whitespace (the behaviour of
`split(/\s+/)` on a string with no leading or trailing whitespace). -/
def tokenize : List Char → List Char → List String
  | [], cur => if cur.isEmpty then [] else [String.mk cur.reverse]
  | c :: rest, cur =>
    if isJsWs c then
      if cur.isEmpty then tokenize rest []
      else String.mk cur.reverse :: tokenize rest []
    else tokenize rest (c :: cur)

/-- auditor.ts lines 389-394: the `.class1.class2` part of a selector segment.
`className.trim().split(/\s+/).slice(0, 2)`; the suffix is appended only when
the class list is non-empty and its first entry is truthy.  On a trimmed
string, `split(/\s+/)` returns `[""]` when the string is empty (first entry
falsy, no suffix) and the whitespace-run tokens otherwise. -/
def classSegment (className : String) : String :=
  if className = "" then ""
  else
    let classes := (tokenize (jsTrim className).data []).take 2
    match classes with
    | [] => ""
    | c :: _ => if c = "" then "" else "." ++ String.intercalate "." classes

/-- One segment of the selector path (auditor.ts lines 386-407): the element is
`sibs[idx]` and `sibs` is its parent's child list.  `:nth-child(i)` is appended
only when the parent has more than one child with the same `tagName`; `i` is
the element's 1-based position among those same-tag children
(`siblings.indexOf(current) + 1`, which compares node identity, hence is the
positional index). -/
def segment (sibs : List ElemData) (idx : Nat) : String :=
  let el := sibs.getD idx ⟨"", "", ""⟩
  let base := jsToLower el.tag ++ classSegment el.className
  let sameTag := sibs.filter (fun c => c.tag = el.tag)
  if sameTag.length > 1 then
    let pos := ((sibs.take idx).filter (fun c => c.tag = el.tag)).length + 1
    base ++ ":nth-child(" ++ toString pos ++ ")"
  else base

/-- An element's position in the document: for the element and each ancestor
strictly below `document.body`, the parent's child list and the element's index
in it.  The head entry is the element itself; the last entry's parent is the
body. -/
def AncestorChain := List (List ElemData × Nat)

/-- auditor.ts lines 378-412, `generateSelector`: `#id` short-circuit when the
element has an id, otherwise the ` > `-joined segments from the topmost
ancestor below the body down to the element (the upward loop `unshift`s each
segment, so the path is the reverse of the upward walk). -/
def generateSelector : List (List ElemData × Nat) → String
  | [] => ""
  | (sibs, idx) :: rest =>
    let el := sibs.getD idx ⟨"", "", ""⟩
    if el.id ≠ "" then "#" ++ el.id
    else
      String.intercalate " > "
        ((((sibs, idx) :: rest).map (fun p => segment p.1 p.2)).reverse)

/-! ## Overflow detection (auditor.ts, detectOverflows) -/

inductive OverflowDirection where
  | horizontal
  | vertical
  | both
deriving DecidableEq, Repr

/-- Runtime component-origin metadata as returned by `getComponentSource`
(auditor.ts lines 314-376).  Its inputs (React fiber internals, data
attributes) live in browser runtime state; the detector only forwards the
fields, so the result is part of the page snapshot. -/
structure ComponentSource where
  fileName : Option String
  lineNumber : Option Nat
  componentName : Option String
deriving DecidableEq, Repr

/-- One element visited by the detector's tree walk, with the geometry the page
evaluation reads.  Elements whose tag is in the exclusion list are rejected at
traversal time (together with their subtrees) and therefore never appear in
this list. -/
structure PageElement where
  data : ElemData
  textContent : String
  rectWidth : Rat
  rectHeight : Rat
  rectX : Rat
  rectY : Rat
  scrollWidth : Int
  offsetWidth : Int
  scrollHeight : Int
  offsetHeight : Int
  /-- ancestry context (head entry = the element itself) for `generateSelector` -/
  chain : List (List ElemData × Nat)
  source : Option ComponentSource
deriving DecidableEq, Repr

/-- constants.ts `OverflowIssue`, extended with the optional source fields the
lint command attaches (`EvaluateIssue` in auditor.ts). -/
structure OverflowIssue where
  selector : String
  tagName : String
  textContent : String
  offsetWidth : Int
  scrollWidth : Int
  offsetHeight : Int
  scrollHeight : Int
  overflowDirection : OverflowDirection
  severity : Severity
  suggestion : String
  locale : String
  rectX : Rat
  rectY : Rat
  rectWidth : Rat
  rectHeight : Rat
  sourceFile : Option String
  sourceLine : Option Nat
  componentName : Option String
deriving DecidableEq, Repr

/-- auditor.ts lines 227-301: the body of the per-element detection loop.
Returns `none` for elements that are skipped (zero-area bounding rect) or that
have no overflow. -/
def processElement (e : PageElement) : Option OverflowIssue :=
  if e.rectWidth = 0 ∨ e.rectHeight = 0 then none
  else
    let hasH := hasHorizontalOverflow e.scrollWidth e.offsetWidth
    let hasV := hasVerticalOverflow e.scrollHeight e.offsetHeight
    if hasH || hasV then
      let overflowDirection : OverflowDirection :=
        if hasH && hasV then .both
        else if hasH then .horizontal
        else .vertical
      let overflowAmount :=
        max (e.scrollWidth - e.offsetWidth) (e.scrollHeight - e.offsetHeight)
      let suggestion :=
        if overflowDirection = .horizontal then
          if jsToLower e.data.tag = "table" then "Add parent with overflow-x-auto"
          else "Try: truncate, break-words, or w-full"
        else "Try: h-auto, line-clamp, or overflow-y-auto"
      some {
        selector := generateSelector e.chain
        tagName := jsToLower e.data.tag
        textContent := String.mk ((jsTrim e.textContent).data.take 50)
        offsetWidth := e.offsetWidth
        scrollWidth := e.scrollWidth
        offsetHeight := e.offsetHeight
        scrollHeight := e.scrollHeight
        overflowDirection := overflowDirection
        severity := severityOf overflowAmount
        suggestion := suggestion
        locale := ""
        rectX := e.rectX
        rectY := e.rectY
        rectWidth := e.rectWidth
        rectHeight := e.rectHeight
        sourceFile := e.source.bind (·.fileName)
        sourceLine := e.source.bind (·.lineNumber)
        componentName := e.source.bind (·.componentName)
      }
    else none

/-- auditor.ts `detectOverflows` (lines 200-421): run the loop over the walked
elements, then stamp the locale onto each issue
(`issues.map((issue) => ({ ...issue, locale }))`). -/
def detectOverflows (elements : List PageElement) (locale : String) :
    List OverflowIssue :=
  (elements.filterMap processElement).map (fun i => { i with locale := locale })

/-- constants.ts `AuditResult`. -/
structure AuditResult where
  url : String
  locale : String
  timestamp : String
  issueCount : Nat
  issues : List OverflowIssue
  duration : Int
deriving DecidableEq, Repr

/-- auditor.ts `Auditor.audit` (lines 116-155): one page load and detection
pass; the result is built with `issueCount: issues.length`.  Navigation,
transformation and timing are external effects, so the page snapshot, the
timestamp and the duration are inputs here. -/
def audit (url locale timestamp : String) (duration : Int)
    (elements : List PageElement) : AuditResult :=
  let issues := detectOverflows elements locale
  { url := url
    locale := locale
    timestamp := timestamp
    issueCount := issues.length
    issues := issues
    duration := duration }

/-! ## Shared string helpers for the JavaScript embedding -/

/-- UTF-16 length of a string (JavaScript `String.prototype.length`): code
points above U+FFFF count as two units. -/
def utf16Length (s : String) : Nat :=
  s.data.foldl (fun n c => n + (if c.toNat >= 65536 then 2 else 1)) 0

/-- `needle` occurs as a contiguous run inside `hay`. -/
def listIsInfix (needle : List Char) : List Char → Bool
  | [] => needle.isEmpty
  | h :: t => needle.isPrefixOf (h :: t) || listIsInfix needle t

/-- `sub` occurs as a substring of `s` (JavaScript `String.prototype.includes`). -/
def jsIncludes (s sub : String) : Bool := listIsInfix sub.data s.data

/-- `Math.ceil(len * q)` for a natural `len` and exact rational `q`, computed
on the numerator/denominator representation so that it evaluates inside the
kernel: `len * q = (q.num * len) / q.den` and `ceil(a/b) = -((-a)/b)` for
`b > 0` with floor division.  `ceilMul_eq_ceil` below certifies that this
equals the mathematical ceiling. -/
def ceilMul (len : Nat) (q : Rat) : Int := -(-(q.num * len) / q.den)

/-- The default pseudo-locale expansion factor 0.35
(constants.ts `PSEUDO_EXPANSION_FACTOR`), as the reduced rational 7/20. -/
def factor035 : Rat := ⟨7, 20, by decide, by decide⟩

/-- Replace every maximal run of whitespace by a single space
(`replace(/\s+/g, ' ')`).  The boolean argument records whether the previous
character was whitespace. -/
def collapseWsAux : List Char → Bool → List Char
  | [], _ => []
  | c :: rest, prevWs =>
    if isJsWs c then
      if prevWs then collapseWsAux rest true
      else ' ' :: collapseWsAux rest true
    else c :: collapseWsAux rest false

/-- `replace(/\s+/g, ' ')` on a string. -/
def collapseWs (s : String) : String := String.mk (collapseWsAux s.data false)

/-! ## Pseudo-locale transformation (pseudo-locale.ts) -/

namespace PseudoLocaleTransform

/-- pseudo-locale.ts lines 18-71: the fixed accented-character lookup table
(entries reproduced byte-for-byte from the source file; several map to
multi-code-point strings). -/
def CHAR_MAP : List (Char × String) := [
  ('a', "√†"),
  ('b', "∆Ä"),
  ('c', "√ß"),
  ('d', "√∞"),
  ('e', "√®"),
  ('f', "∆í"),
  ('g', "ƒù"),
  ('h', "ƒ•"),
  ('i', "√Ø"),
  ('j', "ƒµ"),
  ('k', "ƒ∑"),
  ('l', "ƒ∫"),
  ('m', "…±"),
  ('n', "√±"),
  ('o', "√∂"),
  ('p', "√æ"),
  ('q', "«´"),
  ('r', "≈ï"),
  ('s', "≈°"),
  ('t', "≈£"),
  ('u', "√º"),
  ('v', "·πø"),
  ('w', "≈µ"),
  ('x', "·∫ã"),
  ('y', "√ø"),
  ('z', "≈æ"),
  ('A', "√Ä"),
  ('B', "∆Å"),
  ('C', "√á"),
  ('D', "√ê"),
  ('E', "√à"),
  ('F', "∆ë"),
  ('G', "ƒú"),
  ('H', "ƒ§"),
  ('I', "√è"),
  ('J', "ƒ¥"),
  ('K', "ƒ∂"),
  ('L', "ƒπ"),
  ('M', "·πÇ"),
  ('N', "√ë"),
  ('O', "√ñ"),
  ('P', "√û"),
  ('Q', "«™"),
  ('R', "≈î"),
  ('S', "≈†"),
  ('T', "≈¢"),
  ('U', "√ú"),
  ('V', "·πæ"),
  ('W', "≈¥"),
  ('X', "·∫ä"),
  ('Y', "≈∏"),
  ('Z', "≈Ω")
]

/-- pseudo-locale.ts line 76: the fixed padding glyph set. -/
def PADDING_CHARS : List String := ["·∫ç", "·ª≥", "·∫ë", "·∫Ö"]


/-- The regular expression `/^[\d\s.,!?]+$/`: the whole string is non-empty and
consists of digits, whitespace and the listed punctuation. -/
def isNumericPunct (text : String) : Bool :=
  text ≠ "" &&
    text.data.all (fun c => c.isDigit || isJsWs c || c = '.' || c = ',' || c = '!' || c = '?')

/-- Character substitution step (pseudo-locale.ts lines 101-104):
`result += charMap[char] || char`, iterating code points. -/
def substitute (text : String) : String :=
  String.join (text.data.map (fun c => ((CHAR_MAP.lookup c).getD (String.singleton c))))

/-- Cyclic padding (pseudo-locale.ts lines 107-111):
`padding += paddingChars[i % paddingChars.length]` for `i < paddingLength`. -/
def paddingString (paddingLength : Nat) : String :=
  String.join ((List.range paddingLength).map
    (fun i => PADDING_CHARS.getD (i % PADDING_CHARS.length) ""))

/-- pseudo-locale.ts lines 89-116, `pseudoLocalize` (the transform applied to
every text node and to the `placeholder`/`title`/`aria-label` attributes):
skip blank text; skip text containing `://`, `\x7b`, or `<`, or purely
numeric/punctuation text; otherwise substitute every character through
CHAR_MAP, append `ceil(length * factor)` padding glyphs cyclically, and wrap in
brackets (the wrap happens only when the padding length is positive, which it
is for every non-empty text and positive factor). -/
def pseudoLocalize (text : String) (factor : Rat) : String :=
  if text = "" ∨ jsTrim text = "" then text
  else if jsIncludes text "://" || text.data.contains (Char.ofNat 123) ||
      text.data.contains '<' || isNumericPunct text then text
  else
    let result := substitute text
    let paddingLength := ceilMul (utf16Length text) factor
    if paddingLength > 0 then
      "[" ++ result ++ paddingString paddingLength.toNat ++ "]"
    else result

/-- pseudo-locale.ts lines 189-207, the static `transform` helper (used for
testing): same substitution/padding/bracketing, but without the URL / brace /
numeric skip rules. -/
def transform (text : String) (factor : Rat) : String :=
  if text = "" ∨ jsTrim text = "" then text
  else
    let result := substitute text
    let paddingLength := ceilMul (utf16Length text) factor
    if paddingLength > 0 then
      "[" ++ result ++ paddingString paddingLength.toNat ++ "]"
    else result

end PseudoLocaleTransform

/-! ## Source attribution (source-finder.ts) -/

namespace SourceFinder

/-- source-finder.ts `SourceLocation`: priority tier of an indexed string. -/
inductive SFPriority where
  | i18n
  | jsx
  | string
deriving DecidableEq, Repr

/-- source-finder.ts lines 16-21. -/
structure SourceLocation where
  file : String
  line : Nat
  column : Option Nat
  priority : SFPriority
deriving DecidableEq, Repr

/-- source-finder.ts lines 201-206, `normalizeText`:
`text.trim().replace(/\s+/g, ' ').toLowerCase()`. -/
def normalizeText (text : String) : String :=
  jsToLower (collapseWs (jsTrim text))

/-- A `TextLocationMap` (source-finder.ts lines 23-25): a JavaScript object
keyed by normalized text, in insertion order. -/
def TextLocationMap := List (String × List SourceLocation)

/-- source-finder.ts lines 79-93, `findInMap`: exact key match first (the key
must be present with a non-empty location list), then a bidirectional
substring match over the entries in order, returning the first location of the
first matching key with the tier's priority stamped on. -/
def findInMap (m : List (String × List SourceLocation)) (text : String)
    (p : SFPriority) : Option SourceLocation :=
  let exact : Option SourceLocation :=
    match m.lookup text with
    | some (l :: _) => some { l with priority := p }
    | _ => none
  match exact with
  | some l => some l
  | none =>
    match m.find? (fun q => !q.2.isEmpty && (jsIncludes q.1 text || jsIncludes text q.1)) with
    | some q => some { q.2.headD ⟨"", 0, none, p⟩ with priority := p }
    | none => none

/-- The three maps built by `SourceFinder.scan`. -/
structure SourceFinderState where
  i18nMap : List (String × List SourceLocation)
  jsxMap : List (String × List SourceLocation)
  stringMap : List (String × List SourceLocation)

/-- source-finder.ts lines 58-74, `findSource`: normalize the query, then try
the i18n map, the JSX map and the generic string map in that order. -/
def findSource (st : SourceFinderState) (textContent : String) :
    Option SourceLocation :=
  let t := normalizeText textContent
  match findInMap st.i18nMap t .i18n with
  | some l => some l
  | none =>
    match findInMap st.jsxMap t .jsx with
    | some l => some l
    | none => findInMap st.stringMap t .string

/-- A concrete index for the witness: the normalized text "get started" is
recorded both as an i18n call argument and as a generic string literal. -/
def exampleFinder : SourceFinderState :=
  { i18nMap := [("get started", [⟨"app/page.tsx", 5, none, .string⟩])]
    jsxMap := []
    stringMap := [("get started", [⟨"config.ts", 3, none, .string⟩])] }

end SourceFinder

/-! ## Translation reverse-mapping (translation-mapper.ts) -/

/-- JavaScript `Map.prototype.set`: overwrite in place when the key exists
(keeping its position), append otherwise. -/
def jsMapSet {α : Type} (m : List (String × α)) (k : String) (v : α) :
    List (String × α) :=
  if (m.lookup k).isSome then m.map (fun p => if p.1 = k then (k, v) else p)
  else m ++ [(k, v)]

namespace TranslationMapper

/-- translation-mapper.ts lines 12-16. -/
structure TranslationEntry where
  englishText : String
  translatedText : String
  key : String
deriving DecidableEq, Repr

/-- translation-mapper.ts lines 18-23. -/
structure TranslationMap where
  reverseMap : List (String × TranslationEntry)
  englishToKey : List (String × String)
deriving DecidableEq, Repr

/-- The mapper's mutable fields (translation-mapper.ts lines 28-29), both
empty until `load` succeeds. -/
structure MapperState where
  englishLocale : List (String × String)
  translationMaps : List (String × TranslationMap)
deriving DecidableEq, Repr

/-- translation-mapper.ts lines 144-150, `normalize`:
`text.toLowerCase().replace(/\s+/g, ' ').replace(/[^\w\s]/g, '').trim()`
(`\w` is ASCII word characters). -/
def normalize (text : String) : String :=
  jsTrim (String.mk (((collapseWs (jsToLower text)).data.filter
    (fun c => c.isAlpha || c.isDigit || c = '_' || isJsWs c))))

/-- `this.englishLocale[key] || key` (translation-mapper.ts line 65): the
English text for a shared key, falling back to the key itself when the English
file lacks the key or maps it to the empty string (JavaScript falsiness). -/
def englishFor (englishLocale : List (String × String)) (key : String) : String :=
  match englishLocale.lookup key with
  | some v => if v = "" then key else v
  | none => key

/-- The parsed locale files `load` reads: the `en.json` object and, for every
other `<locale>.json` file in the directory, its name and parsed object. -/
structure LocaleFiles where
  en : List (String × String)
  others : List (String × List (String × String))

/-- translation-mapper.ts lines 62-71: build one locale's reverse map,
`normalize(translatedText) -> {englishText, translatedText, key}` over the
file's entries in order. -/
def buildReverseMap (englishLocale : List (String × String))
    (entries : List (String × String)) : List (String × TranslationEntry) :=
  entries.foldl
    (fun m p =>
      jsMapSet m (normalize p.2)
        { englishText := englishFor englishLocale p.1
          translatedText := p.2
          key := p.1 })
    []

/-- translation-mapper.ts lines 39-78, `load`: on success, store the English
file, build the English-text-to-key index, and build one reverse map per other
locale file.  Any I/O or parse error is swallowed by the surrounding
`try/catch`, leaving the initial empty state -- modelled by the `none` input. -/
def load : Option LocaleFiles → MapperState
  | none => { englishLocale := [], translationMaps := [] }
  | some files =>
    let englishToKey :=
      files.en.foldl (fun m p => jsMapSet m (normalize p.2) p.1) []
    { englishLocale := files.en
      translationMaps :=
        files.others.foldl
          (fun tm q =>
            jsMapSet tm q.1
              { reverseMap := buildReverseMap files.en q.2
                englishToKey := englishToKey })
          [] }

/-- The two-step search of one reverse map (translation-mapper.ts lines 91-99
and 105-113): exact match on the normalized text, then the first entry whose
key contains the query or is contained in it. -/
def searchMap (m : List (String × TranslationEntry)) (normalizedText : String) :
    Option TranslationEntry :=
  match m.lookup normalizedText with
  | some e => some e
  | none =>
    (m.find? (fun p => jsIncludes normalizedText p.1 || jsIncludes p.1 normalizedText)).map
      (fun p => p.2)

/-- translation-mapper.ts lines 83-117, `findEnglishOriginal`: if a locale
hint is given, truthy and not `"en"`, search that locale's reverse map first;
then fall back to searching every loaded locale's map in order; `none` when
nothing matches (never an exception). -/
def findEnglishOriginal (st : MapperState) (text : String)
    (locale : Option String) : Option TranslationEntry :=
  let normalizedText := normalize text
  let fromHint : Option TranslationEntry :=
    match locale with
    | some loc =>
      if loc ≠ "" ∧ loc ≠ "en" then
        match st.translationMaps.lookup loc with
        | some map => searchMap map.reverseMap normalizedText
        | none => none
      else none
    | none => none
  match fromHint with
  | some e => some e
  | none => st.translationMaps.findSome? (fun p => searchMap p.2.reverseMap normalizedText)

/-- The locale files of the reverse-map example: English maps "cta" to
"Get Started", German maps "cta" to "Jetzt loslegen". -/
def exampleFiles : LocaleFiles :=
  { en := [("cta", "Get Started")]
    others := [("de", [("cta", "Jetzt loslegen")])] }

end TranslationMapper

/-! ## Result deduplication (lint.ts, deduplicateResults) -/

/-- lint.ts line 309: `{ error: 3, warning: 2, info: 1 }`. -/
def severityOrder : Severity → Nat
  | .error => 3
  | .warning => 2
  | .info => 1

/-- lint.ts lines 315-317: group by `sourceFile:sourceLine` when both fields
are truthy (JavaScript: a present, non-empty file string and a present,
non-zero line number), else by the raw `textContent`. -/
def dedupKey (i : OverflowIssue) : String :=
  match i.sourceFile, i.sourceLine with
  | some f, some l =>
    if f ≠ "" ∧ l ≠ 0 then f ++ ":" ++ toString l else i.textContent
  | _, _ => i.textContent

/-- lint.ts lines 319-322: one iteration of the dedup loop --
`sourceMap.set(key, issue)` when the key is new or the incoming severity is
strictly higher than the retained one. -/
def dedupStep (m : List (String × OverflowIssue)) (i : OverflowIssue) :
    List (String × OverflowIssue) :=
  match m.lookup (dedupKey i) with
  | none => jsMapSet m (dedupKey i) i
  | some existing =>
    if severityOrder i.severity > severityOrder existing.severity then
      jsMapSet m (dedupKey i) i
    else m

/-- lint.ts lines 312-325: fold the issues through the map and read the
retained issues back in insertion order (`Array.from(sourceMap.values())`). -/
def dedupeIssues (issues : List OverflowIssue) : List OverflowIssue :=
  (issues.foldl dedupStep []).map Prod.snd

/-- lint.ts lines 308-333, `deduplicateResults`: per result, a new
`AuditResult` with the deduplicated issue list and recomputed `issueCount`
(the input list is never mutated -- the embedding is pure, and the function
builds each output record from a fresh copy). -/
def deduplicateResults (results : List AuditResult) : List AuditResult :=
  results.map (fun r =>
    let deduplicatedIssues := dedupeIssues r.issues
    { r with issues := deduplicatedIssues
             issueCount := deduplicatedIssues.length })

/-! ### Invariants used to verify the dedup fold -/

/-- `v` is the issue the map retains for group `k` over the processed prefix:
it lies in the prefix, every group member's severity is at most its own, and
every group member strictly before it has strictly lower severity (so the
first-encountered issue wins ties). -/
def IsFirstMax (processed : List OverflowIssue) (k : String)
    (v : OverflowIssue) : Prop :=
  dedupKey v = k ∧
  (∃ pre post, processed = pre ++ v :: post ∧
    ∀ j ∈ pre, dedupKey j = k →
      severityOrder j.severity < severityOrder v.severity) ∧
  ∀ j ∈ processed, dedupKey j = k →
    severityOrder j.severity ≤ severityOrder v.severity

/-- Invariant of the dedup fold relating the accumulated map to the processed
prefix of the issue list. -/
def DedupInv (processed : List OverflowIssue)
    (m : List (String × OverflowIssue)) : Prop :=
  (m.map Prod.fst).Nodup ∧
  (∀ p ∈ m, IsFirstMax processed p.1 p.2) ∧
  (∀ j ∈ processed, ∃ p ∈ m, p.1 = dedupKey j)

/-! ### Concrete issues and results used by witnesses -/

/-- A concrete warning issue attributed to app/page.tsx:12. -/
def warningIssue : OverflowIssue :=
  { selector := "div.card", tagName := "div", textContent := "Get Started"
    offsetWidth := 100, scrollWidth := 130, offsetHeight := 40, scrollHeight := 40
    overflowDirection := .horizontal, severity := .warning
    suggestion := "Try: truncate, break-words, or w-full", locale := "de"
    rectX := 0, rectY := 0, rectWidth := 100, rectHeight := 40
    sourceFile := some "app/page.tsx", sourceLine := some 12
    componentName := none }

/-- A concrete error issue sharing `sourceFile:sourceLine` with
`warningIssue`. -/
def errorIssue : OverflowIssue :=
  { warningIssue with
      selector := "div.card > span", tagName := "span"
      scrollWidth := 160, severity := .error }

/-- An audit result holding the two issues above. -/
def exampleResult : AuditResult :=
  { url := "http://localhost:3000", locale := "de"
    timestamp := "2026-01-01T00:00:00.000Z", issueCount := 2
    issues := [warningIssue, errorIssue], duration := 1200 }

/-! ### Concrete page elements used by witnesses -/

/-- An element sitting exactly at the horizontal tolerance boundary
(`scrollWidth = offsetWidth + 1`) while overflowing vertically by 30px. -/
def boundaryElement : PageElement :=
  { data := ⟨"DIV", "", "card"⟩
    textContent := "Get Started"
    rectWidth := 10
    rectHeight := 10
    rectX := 0
    rectY := 0
    scrollWidth := 101
    offsetWidth := 100
    scrollHeight := 130
    offsetHeight := 100
    chain := [([⟨"DIV", "", "card"⟩], 0)]
    source := none }

end LingoGuardian

/-! ## Claim theorems (first batch) -/

namespace LingoGuardian

/-! ### Helper lemmas -/

/-- `ceilMul` computes the mathematical ceiling of `len * q`. -/
lemma ceilMul_eq_ceil (len : Nat) (q : Rat) :
    ceilMul len q = Int.ceil ((len : Rat) * q) := by
  unfold ceilMul
  have h1 : -((len : Rat) * q) = ((-(q.num * len) : Int) : Rat) / ((q.den : Nat) : Rat) := by
    push_cast
    have h : (q.num : ℚ) * len / q.den = len * ((q.num : ℚ) / (q.den : ℚ)) := by ring
    rw [neg_div, h, Rat.num_div_den]
  have h2 : Int.floor (-((len : Rat) * q)) = -(q.num * len) / (q.den : Int) := by
    rw [h1, Rat.floor_intCast_div_natCast]
  have h3 : Int.floor (-((len : Rat) * q)) = -Int.ceil ((len : Rat) * q) := Int.floor_neg
  omega

/-- `factor035` is the rational 0.35. -/
lemma factor035_eq : factor035 = 35/100 := by
  have h := (Rat.num_div_den factor035).symm
  rw [show factor035.num = 7 from rfl, show factor035.den = 20 from rfl] at h
  rw [h]; norm_num

/-- A `List.lookup` miss means no pair carries the key. -/
lemma lookup_eq_none_iff {α : Type} (m : List (String × α)) (k : String) :
    m.lookup k = none ↔ ∀ p ∈ m, p.1 ≠ k := by
  induction m with
  | nil => simp
  | cons p rest ih =>
    rw [List.lookup_cons]
    by_cases h : k = p.1
    · subst h; simp
    · have hb : (k == p.1) = false := by simp [h]
      rw [hb]
      simp only [List.mem_cons]
      constructor
      · intro hrest q hq
        rcases hq with rfl | hq
        · exact fun hc => h hc.symm
        · exact (ih.mp hrest) q hq
      · intro hall
        exact ih.mpr (fun q hq => hall q (Or.inr hq))

/-- A `List.lookup` hit is a member pair with the queried key. -/
lemma lookup_eq_some_mem {α : Type} {m : List (String × α)} {k : String} {v : α}
    (h : m.lookup k = some v) : (k, v) ∈ m := by
  induction m with
  | nil => simp at h
  | cons p rest ih =>
    rw [List.lookup_cons] at h
    by_cases hk : k = p.1
    · subst hk
      simp at h
      simp [← h]
    · have hb : (k == p.1) = false := by simp [hk]
      rw [hb] at h
      exact List.mem_cons_of_mem p (ih h)

/-- Under distinct keys, two member pairs with equal keys coincide. -/
lemma nodup_keys_eq {α : Type} {m : List (String × α)}
    (hn : (m.map Prod.fst).Nodup) {p q : String × α}
    (hp : p ∈ m) (hq : q ∈ m) (hk : p.1 = q.1) : p = q := by
  induction m with
  | nil => simp at hp
  | cons r rest ih =>
    simp only [List.map_cons, List.nodup_cons] at hn
    rcases List.mem_cons.mp hp with rfl | hp2
    · rcases List.mem_cons.mp hq with rfl | hq2
      · rfl
      · exact absurd (hk ▸ List.mem_map_of_mem Prod.fst hq2) hn.1
    · rcases List.mem_cons.mp hq with rfl | hq2
      · exact absurd (hk ▸ List.mem_map_of_mem Prod.fst hp2) hn.1
      · exact ih hn.2 hp2 hq2

/-- One dedup iteration preserves the fold invariant. -/
lemma dedupStep_inv {processed : List OverflowIssue}
    {m : List (String × OverflowIssue)} (h : DedupInv processed m)
    (i : OverflowIssue) : DedupInv (processed ++ [i]) (dedupStep m i) := by
  obtain ⟨hnd, hent, hcomp⟩ := h
  unfold dedupStep
  cases hl : m.lookup (dedupKey i) with
  | none =>
    have hnone : ∀ p ∈ m, p.1 ≠ dedupKey i := (lookup_eq_none_iff m _).mp hl
    have hset : jsMapSet m (dedupKey i) i = m ++ [(dedupKey i, i)] := by
      simp [jsMapSet, hl]
    rw [hset]
    refine ⟨?_, ?_, ?_⟩
    · rw [List.map_append]
      refine List.Nodup.append hnd (List.nodup_singleton _) ?_
      intro a ha hb
      simp only [List.map_cons, List.map_nil, List.mem_singleton] at hb
      obtain ⟨p, hp, hpa⟩ := List.mem_map.mp ha
      exact hnone p hp (hpa.trans hb)
    · intro p hp
      rcases List.mem_append.mp hp with hpm | hpk
      · obtain ⟨hkey, ⟨pre, post, hdec, hstrict⟩, hmax⟩ := hent p hpm
        refine ⟨hkey, ⟨pre, post ++ [i], by rw [hdec]; simp, hstrict⟩, ?_⟩
        intro j hj hjk
        rcases List.mem_append.mp hj with hjp | hji
        · exact hmax j hjp hjk
        · simp only [List.mem_singleton] at hji
          subst hji
          exact absurd hjk.symm (hnone p hpm)
      · simp only [List.mem_singleton] at hpk
        subst hpk
        refine ⟨rfl, ⟨processed, [], by simp, ?_⟩, ?_⟩
        · intro j hj hjk
          obtain ⟨q, hq, hqk⟩ := hcomp j hj
          exact absurd (hqk.trans hjk) (hnone q hq)
        · intro j hj hjk
          rcases List.mem_append.mp hj with hjp | hji
          · obtain ⟨q, hq, hqk⟩ := hcomp j hjp
            exact absurd (hqk.trans hjk) (hnone q hq)
          · simp only [List.mem_singleton] at hji
            subst hji
            exact le_refl _
    · intro j hj
      rcases List.mem_append.mp hj with hjp | hji
      · obtain ⟨q, hq, hqk⟩ := hcomp j hjp
        exact ⟨q, List.mem_append_left _ hq, hqk⟩
      · simp only [List.mem_singleton] at hji
        subst hji
        exact ⟨(dedupKey j, j), List.mem_append_right _ (by simp), rfl⟩
  | some existing =>
    have hmem : (dedupKey i, existing) ∈ m := lookup_eq_some_mem hl
    obtain ⟨hekey, ⟨epre, epost, hedec, hestrict⟩, hemax⟩ := hent _ hmem
    show DedupInv (processed ++ [i])
      (if severityOrder i.severity > severityOrder existing.severity then
        jsMapSet m (dedupKey i) i
      else m)
    by_cases hsev : severityOrder i.severity > severityOrder existing.severity
    · rw [if_pos hsev]
      have hset : jsMapSet m (dedupKey i) i =
          m.map (fun p => if p.1 = dedupKey i then (dedupKey i, i) else p) := by
        simp [jsMapSet, hl]
      rw [hset]
      have hfst : ∀ p : String × OverflowIssue,
          (if p.1 = dedupKey i then (dedupKey i, i) else p).1 = p.1 := by
        intro p; by_cases hp : p.1 = dedupKey i <;> simp [hp]
      refine ⟨?_, ?_, ?_⟩
      · rw [List.map_map]
        have hmm :
            m.map (Prod.fst ∘ fun p => if p.1 = dedupKey i then (dedupKey i, i) else p) =
              m.map Prod.fst :=
          List.map_congr_left (fun p _ => hfst p)
        rw [hmm]
        exact hnd
      · intro p hp
        obtain ⟨q, hq, hqe⟩ := List.mem_map.mp hp
        by_cases hqk : q.1 = dedupKey i
        · have hpe : p = (dedupKey i, i) := by rw [← hqe]; simp [hqk]
          subst hpe
          refine ⟨rfl, ⟨processed, [], by simp, ?_⟩, ?_⟩
          · intro j hj hjk
            exact lt_of_le_of_lt (hemax j hj hjk) hsev
          · intro j hj hjk
            rcases List.mem_append.mp hj with hjp | hji
            · exact le_of_lt (lt_of_le_of_lt (hemax j hjp hjk) hsev)
            · simp only [List.mem_singleton] at hji
              subst hji
              exact le_refl _
        · have hpe : p = q := by rw [← hqe]; simp [hqk]
          obtain ⟨hkey, ⟨pre, post, hdec, hstrict⟩, hmax⟩ := hent q hq
          rw [hpe]
          refine ⟨hkey, ⟨pre, post ++ [i], by rw [hdec]; simp, hstrict⟩, ?_⟩
          intro j hj hjk
          rcases List.mem_append.mp hj with hjp | hji
          · exact hmax j hjp hjk
          · simp only [List.mem_singleton] at hji
            subst hji
            exact absurd hjk.symm hqk
      · intro j hj
        rcases List.mem_append.mp hj with hjp | hji
        · obtain ⟨q, hq, hqk⟩ := hcomp j hjp
          exact ⟨(if q.1 = dedupKey i then (dedupKey i, i) else q),
            List.mem_map_of_mem _ hq, (hfst q).trans hqk⟩
        · simp only [List.mem_singleton] at hji
          subst hji
          refine ⟨(dedupKey j, j), ?_, rfl⟩
          have hmm := List.mem_map_of_mem
            (fun p : String × OverflowIssue =>
              if p.1 = dedupKey j then (dedupKey j, j) else p) hmem
          simpa using hmm
    · rw [if_neg hsev]
      have hle : severityOrder i.severity ≤ severityOrder existing.severity :=
        Nat.le_of_not_lt hsev
      refine ⟨hnd, ?_, ?_⟩
      · intro p hp
        obtain ⟨hkey, ⟨pre, post, hdec, hstrict⟩, hmax⟩ := hent p hp
        refine ⟨hkey, ⟨pre, post ++ [i], by rw [hdec]; simp, hstrict⟩, ?_⟩
        intro j hj hjk
        rcases List.mem_append.mp hj with hjp | hji
        · exact hmax j hjp hjk
        · simp only [List.mem_singleton] at hji
          subst hji
          have hpeq : p = (dedupKey j, existing) :=
            nodup_keys_eq hnd hp hmem hjk.symm
          rw [hpeq]
          exact hle
      · intro j hj
        rcases List.mem_append.mp hj with hjp | hji
        · exact hcomp j hjp
        · simp only [List.mem_singleton] at hji
          subst hji
          exact ⟨(dedupKey j, existing), hmem, rfl⟩

/-- The dedup fold preserves the invariant along any issue list. -/
lemma dedup_foldl_inv (issues : List OverflowIssue) :
    ∀ (processed : List OverflowIssue) (m : List (String × OverflowIssue)),
      DedupInv processed m → DedupInv (processed ++ issues) (issues.foldl dedupStep m) := by
  induction issues with
  | nil => intro processed m h; simpa using h
  | cons i rest ih =>
    intro processed m h
    have h1 := dedupStep_inv h i
    have h2 := ih (processed ++ [i]) (dedupStep m i) h1
    simpa using h2

/-- The invariant holds of the finished dedup map. -/
lemma dedupeIssues_inv (issues : List OverflowIssue) :
    DedupInv issues (issues.foldl dedupStep []) := by
  have h := dedup_foldl_inv issues [] []
    ⟨List.nodup_nil, fun p hp => absurd hp (List.not_mem_nil p),
      fun j hj => absurd hj (List.not_mem_nil j)⟩
  simpa using h

/-- Every result produced by `deduplicateResults` has `issueCount` equal to
the length of its issue list. -/
lemma deduplicateResults_issueCount (results : List AuditResult) (r : AuditResult)
    (hr : r ∈ deduplicateResults results) : r.issueCount = r.issues.length := by
  simp only [deduplicateResults, List.mem_map] at hr
  obtain ⟨a, _, rfl⟩ := hr
  rfl

/-- C1: for every element considered by the overflow detector,
`hasHorizontalOverflow` holds exactly when `scrollWidth > offsetWidth + 1`
(and `hasVerticalOverflow` when `scrollHeight > offsetHeight + 1`); an element
with `scrollWidth = offsetWidth + 2` has horizontal overflow, one with
`scrollWidth = offsetWidth + 1` exactly does not, and at that boundary no
issue is emitted for the horizontal axis (any issue the detector emits for
such an element is classified `vertical`). -/
theorem overflow_predicate_boundary :
    (∀ sw ow : Int, hasHorizontalOverflow sw ow = true ↔ sw > ow + 1) ∧
    (∀ sh oh : Int, hasVerticalOverflow sh oh = true ↔ sh > oh + 1) ∧
    (∀ ow : Int, hasHorizontalOverflow (ow + 2) ow = true) ∧
    (∀ ow : Int, hasHorizontalOverflow (ow + 1) ow = false) ∧
    (∀ (e : PageElement) (iss : OverflowIssue),
      e.scrollWidth = e.offsetWidth + 1 →
      processElement e = some iss →
      iss.overflowDirection = OverflowDirection.vertical) := by
  refine ⟨?_, ?_, ?_, ?_, ?_⟩
  · intro sw ow; simp [hasHorizontalOverflow]
  · intro sh oh; simp [hasVerticalOverflow]
  · intro ow; simp [hasHorizontalOverflow]
  · intro ow; simp [hasHorizontalOverflow]
  · intro e iss hb hpe
    have hH : hasHorizontalOverflow e.scrollWidth e.offsetWidth = false := by
      simp [hasHorizontalOverflow, hb]
    unfold processElement at hpe
    by_cases hz : e.rectWidth = 0 ∨ e.rectHeight = 0
    · simp [hz] at hpe
    · simp only [hz, if_false] at hpe
      rw [hH] at hpe
      by_cases hV : hasVerticalOverflow e.scrollHeight e.offsetHeight
      · simp [hV] at hpe
        rw [← hpe]
      · simp [hV] at hpe

/-- Witness for `overflow_predicate_boundary`: at the concrete boundary
element (`scrollWidth = 101 = offsetWidth + 1`, vertical overflow 30px), the
emitted issue is classified `vertical`. -/
theorem overflow_predicate_boundary_witness :
    boundaryElement.scrollWidth = boundaryElement.offsetWidth + 1 ∧
    (processElement boundaryElement).map OverflowIssue.overflowDirection =
      some OverflowDirection.vertical := by
  refine ⟨by decide, ?_⟩
  cases hpe : processElement boundaryElement with
  | none => exact absurd hpe (by decide)
  | some iss =>
    simp [overflow_predicate_boundary.2.2.2.2 boundaryElement iss (by decide) hpe]

/-- C2 counterexample: the code maps overflow amount 20 to `info`, not to
`warning` as the claim states (`> 20` is strict, so 20 falls to the `else`
branch). -/
theorem severity_at_twenty_counterexample :
    severityOf 20 = Severity.info ∧ severityOf 20 ≠ Severity.warning := by
  decide

/-- C2 (amended): overflow amounts 10, 25, 60 yield `info`, `warning`, `error`
respectively; the thresholds are strict `>`, so at the exact boundaries amount
20 yields `info` (not `warning` or `error`) and amount 50 yields `warning`
(not `error`): `severityOf a = error ↔ a > 50`,
`severityOf a = warning ↔ 20 < a ≤ 50`, `severityOf a = info ↔ a ≤ 20`. -/
theorem severity_thresholds_strict :
    severityOf 10 = Severity.info ∧
    severityOf 25 = Severity.warning ∧
    severityOf 60 = Severity.error ∧
    severityOf 20 = Severity.info ∧
    severityOf 50 = Severity.warning ∧
    (∀ a : Int,
      (severityOf a = Severity.error ↔ a > 50) ∧
      (severityOf a = Severity.warning ↔ 20 < a ∧ a ≤ 50) ∧
      (severityOf a = Severity.info ↔ a ≤ 20)) := by
  refine ⟨by decide, by decide, by decide, by decide, by decide, ?_⟩
  intro a
  unfold severityOf
  by_cases h50 : a > 50
  · simp [h50]; omega
  · by_cases h20 : a > 20
    · simp [h50, h20]; omega
    · simp [h50, h20]; omega

/-- C3: the pseudo-locale text transform (`pseudoLocalize`, the function
applied to every text node and attribute) is deterministic -- it is a pure
function of the input text and expansion factor, so transforming the same
input with the same factor twice yields byte-identical output; a URL-looking
input ("https://x.com" contains "://") and a purely numeric/punctuation input
("123.45") are returned unchanged for every factor; and "Hello" at factor
0.35 yields a bracketed, character-substituted string carrying exactly
`ceil(5 * 0.35) = 2` padding glyphs drawn cyclically (entries 0 and 1) from
the fixed padding set. -/
theorem pseudo_locale_transform_spec :
    (∀ (t : String) (f : Rat),
      PseudoLocaleTransform.pseudoLocalize t f =
        PseudoLocaleTransform.pseudoLocalize t f) ∧
    (∀ f : Rat, PseudoLocaleTransform.pseudoLocalize "https://x.com" f = "https://x.com") ∧
    (∀ f : Rat, PseudoLocaleTransform.pseudoLocalize "123.45" f = "123.45") ∧
    PseudoLocaleTransform.pseudoLocalize "Hello" factor035 =
      "[" ++ PseudoLocaleTransform.substitute "Hello" ++
        (PseudoLocaleTransform.PADDING_CHARS.getD 0 "" ++
         PseudoLocaleTransform.PADDING_CHARS.getD 1 "") ++ "]" ∧
    PseudoLocaleTransform.pseudoLocalize "Hello" factor035 = "[ƒ§√®ƒ∫ƒ∫√∂·∫ç·ª≥]" ∧
    ceilMul (utf16Length "Hello") factor035 = 2 ∧
    Int.ceil ((utf16Length "Hello" : Rat) * factor035) = 2 ∧
    factor035 = 35/100 := by
  refine ⟨fun t f => rfl, fun f => rfl, fun f => rfl, by decide, by decide, by decide, ?_, factor035_eq⟩
  rw [← ceilMul_eq_ceil]; decide

/-- C7: an element with `id="foo"` always yields exactly the selector `#foo`,
whatever its ancestry (the id short-circuits path building); for the second of
three `<li>` children (no ids) under a `div.list` parent, the synthesized
selector is `div.list > li:nth-child(2)`, which ends in `:nth-child(2)` --
the 1-based position among same-tag siblings. -/
theorem selector_synthesis_spec :
    (∀ (sibs : List ElemData) (idx : Nat) (rest : List (List ElemData × Nat)),
      (sibs.getD idx ⟨"", "", ""⟩).id = "foo" →
      generateSelector ((sibs, idx) :: rest) = "#foo") ∧
    generateSelector
      [([⟨"LI", "", ""⟩, ⟨"LI", "", ""⟩, ⟨"LI", "", ""⟩], 1),
       ([⟨"DIV", "", "list"⟩], 0)] = "div.list > li:nth-child(2)" ∧
    ":nth-child(2)".data.isSuffixOf
      (generateSelector
        [([⟨"LI", "", ""⟩, ⟨"LI", "", ""⟩, ⟨"LI", "", ""⟩], 1),
         ([⟨"DIV", "", "list"⟩], 0)]).data = true := by
  refine ⟨?_, by decide, by decide⟩
  intro sibs idx rest h
  simp only [generateSelector]
  rw [h, if_pos (show ("foo" : String) ≠ "" by decide)]
  rfl

/-- Witness for `selector_synthesis_spec`: a concrete element with `id="foo"`
nested two levels deep yields `#foo`. -/
theorem selector_synthesis_spec_witness :
    (([⟨"SPAN", "foo", "a b"⟩] : List ElemData).getD 0 ⟨"", "", ""⟩).id = "foo" ∧
    generateSelector [([⟨"SPAN", "foo", "a b"⟩], 0), ([⟨"MAIN", "", ""⟩], 0)] = "#foo" :=
  ⟨by decide,
    selector_synthesis_spec.1 [⟨"SPAN", "foo", "a b"⟩] 0 [([⟨"MAIN", "", ""⟩], 0)] (by decide)⟩

/-- C4: for any rendered text whose normalized form is recorded in both the
i18n-call map and the generic-string-literal map (each with at least one
location), `findSource` returns the first recorded i18n location stamped with
priority `i18n` -- never the generic one: the i18n map is tried first and its
exact key match fires. -/
theorem attribution_priority_spec
    (st : SourceFinder.SourceFinderState) (text : String)
    (l : SourceFinder.SourceLocation) (ls : List SourceFinder.SourceLocation)
    (g : SourceFinder.SourceLocation) (gs : List SourceFinder.SourceLocation)
    (hi : st.i18nMap.lookup (SourceFinder.normalizeText text) = some (l :: ls))
    (hg : st.stringMap.lookup (SourceFinder.normalizeText text) = some (g :: gs)) :
    SourceFinder.findSource st text =
      some { l with priority := SourceFinder.SFPriority.i18n } := by
  simp only [SourceFinder.findSource, SourceFinder.findInMap, hi]

/-- Witness for `attribution_priority_spec`: on the concrete index where
"get started" is both an i18n argument (app/page.tsx:5) and a generic string
literal (config.ts:3), the lookup returns the i18n location. -/
theorem attribution_priority_spec_witness :
    SourceFinder.findSource SourceFinder.exampleFinder "Get Started" =
      some ⟨"app/page.tsx", 5, none, SourceFinder.SFPriority.i18n⟩ :=
  attribution_priority_spec SourceFinder.exampleFinder "Get Started"
    ⟨"app/page.tsx", 5, none, .string⟩ [] ⟨"config.ts", 3, none, .string⟩ []
    (by decide) (by decide)

/-- C6: with a German locale file mapping "cta" to "Jetzt loslegen" and an
English file mapping "cta" to "Get Started", `findEnglishOriginal` on
"Jetzt loslegen" with hint "de" returns the entry with englishText
"Get Started" and key "cta" (resolved via the shared key against the English
file); when the English file lacks a key, the reverse-map entry falls back to
the key itself as the English text. -/
theorem reverse_map_fallback_spec :
    TranslationMapper.findEnglishOriginal
        (TranslationMapper.load (some TranslationMapper.exampleFiles))
        "Jetzt loslegen" (some "de") =
      some ⟨"Get Started", "Jetzt loslegen", "cta"⟩ ∧
    (∀ (en : List (String × String)) (k : String),
      en.lookup k = none → TranslationMapper.englishFor en k = k) := by
  refine ⟨by decide, ?_⟩
  intro en k h
  simp [TranslationMapper.englishFor, h]

/-- Witness for `reverse_map_fallback_spec`: with an English file that lacks
the key "missing", the resolved English text is the key itself. -/
theorem reverse_map_fallback_spec_witness :
    TranslationMapper.englishFor [("cta", "Get Started")] "missing" = "missing" :=
  reverse_map_fallback_spec.2 [("cta", "Get Started")] "missing" (by decide)

/-- C9: when no locale data was ever loaded (every reverse map absent),
`findEnglishOriginal` returns `none` for every query text and locale hint;
the embedding is total, so no exception is possible. -/
theorem no_locale_data_returns_none_spec :
    ∀ (st : TranslationMapper.MapperState), st.translationMaps = [] →
      ∀ (text : String) (locale : Option String),
        TranslationMapper.findEnglishOriginal st text locale = none := by
  intro st h text locale
  unfold TranslationMapper.findEnglishOriginal
  rw [h]
  cases locale with
  | none => simp
  | some loc =>
    by_cases hloc : loc ≠ "" ∧ loc ≠ "en" <;> simp [hloc]

/-- Witness for `no_locale_data_returns_none_spec`: the state produced by a
failed `load` (all maps empty) answers `none` for a concrete query. -/
theorem no_locale_data_returns_none_spec_witness :
    TranslationMapper.findEnglishOriginal (TranslationMapper.load none)
      "Get Started" (some "de") = none :=
  no_locale_data_returns_none_spec (TranslationMapper.load none) rfl
    "Get Started" (some "de")

/-- C5: deduplication groups issues by `sourceFile:sourceLine` (else raw
`textContent`): two issues sharing `app/page.tsx:12`, one warning then one
error, collapse to the single error issue; every produced result's
`issueCount` equals its collapsed issue list's length (the input is never
mutated -- the embedding is pure); retained keys are pairwise distinct (one
issue per group), every group is represented, and each retained issue is the
first-encountered maximal-severity member of its group (ties keep the first
encountered). -/
theorem dedup_collapse_spec :
    dedupeIssues [warningIssue, errorIssue] = [errorIssue] ∧
    deduplicateResults [exampleResult] =
      [{ exampleResult with issues := [errorIssue], issueCount := 1 }] ∧
    (∀ (results : List AuditResult) (r : AuditResult),
      r ∈ deduplicateResults results → r.issueCount = r.issues.length) ∧
    (∀ issues : List OverflowIssue, ((dedupeIssues issues).map dedupKey).Nodup) ∧
    (∀ (issues : List OverflowIssue) (j : OverflowIssue), j ∈ issues →
      ∃ i, i ∈ dedupeIssues issues ∧ dedupKey i = dedupKey j) ∧
    (∀ (issues : List OverflowIssue) (i : OverflowIssue), i ∈ dedupeIssues issues →
      (∃ pre post, issues = pre ++ i :: post ∧
        ∀ j ∈ pre, dedupKey j = dedupKey i →
          severityOrder j.severity < severityOrder i.severity) ∧
      ∀ j ∈ issues, dedupKey j = dedupKey i →
        severityOrder j.severity ≤ severityOrder i.severity) := by
  refine ⟨by decide, by decide, deduplicateResults_issueCount, ?_, ?_, ?_⟩
  · intro issues
    obtain ⟨hnd, hent, _⟩ := dedupeIssues_inv issues
    unfold dedupeIssues
    rw [List.map_map]
    have hmm : (issues.foldl dedupStep []).map (dedupKey ∘ Prod.snd) =
        (issues.foldl dedupStep []).map Prod.fst :=
      List.map_congr_left (fun p hp => (hent p hp).1)
    rw [hmm]
    exact hnd
  · intro issues j hj
    obtain ⟨_, hent, hcomp⟩ := dedupeIssues_inv issues
    obtain ⟨p, hp, hpk⟩ := hcomp j hj
    exact ⟨p.2, List.mem_map_of_mem _ hp, (hent p hp).1.trans hpk⟩
  · intro issues i hi
    obtain ⟨_, hent, _⟩ := dedupeIssues_inv issues
    obtain ⟨p, hp, hpe⟩ := List.mem_map.mp hi
    obtain ⟨hkey, ⟨pre, post, hdec, hstrict⟩, hmax⟩ := hent p hp
    subst hpe
    exact ⟨⟨pre, post, hdec, fun j hj hjk => hstrict j hj (hjk.trans hkey)⟩,
      fun j hj hjk => hmax j hj (hjk.trans hkey)⟩

/-- Witness for `dedup_collapse_spec`: the deduplicated copy of the concrete
result has `issueCount` matching its collapsed issue list. -/
theorem dedup_collapse_spec_witness :
    ({ exampleResult with issues := [errorIssue], issueCount := 1 } : AuditResult).issueCount =
      ({ exampleResult with issues := [errorIssue], issueCount := 1 } : AuditResult).issues.length :=
  dedup_collapse_spec.2.2.1 [exampleResult]
    { exampleResult with issues := [errorIssue], issueCount := 1 } (by decide)

/-- C10: every `AuditResult` the program produces satisfies
`issueCount = issues.length`: `Auditor.audit` constructs the result with
`issueCount: issues.length`, and `deduplicateResults` recomputes `issueCount`
as the length of the deduplicated list, so the invariant is preserved by every
operation that creates or rewrites an `AuditResult`. -/
theorem issue_count_invariant_spec :
    (∀ (url locale timestamp : String) (duration : Int)
      (elements : List PageElement),
      (audit url locale timestamp duration elements).issueCount =
        (audit url locale timestamp duration elements).issues.length) ∧
    (∀ (results : List AuditResult) (r : AuditResult),
      r ∈ deduplicateResults results → r.issueCount = r.issues.length) :=
  ⟨fun _ _ _ _ _ => rfl, deduplicateResults_issueCount⟩

/-- Witness for `issue_count_invariant_spec`: a concrete audit pass over the
boundary element, and a concrete deduplicated result, both satisfy the
invariant. -/
theorem issue_count_invariant_spec_witness :
    (audit "http://localhost:3000" "pseudo" "2026-01-01T00:00:00.000Z" 900
        [boundaryElement]).issueCount =
      (audit "http://localhost:3000" "pseudo" "2026-01-01T00:00:00.000Z" 900
        [boundaryElement]).issues.length ∧
    (deduplicateResults
        [{ exampleResult with issues := [errorIssue], issueCount := 1 }]).all
      (fun r => r.issueCount = r.issues.length) := by
  refine ⟨issue_count_invariant_spec.1 "http://localhost:3000" "pseudo"
    "2026-01-01T00:00:00.000Z" 900 [boundaryElement], ?_⟩
  rw [List.all_eq_true]
  intro r hr
  simp only [decide_eq_true_eq]
  exact issue_count_invariant_spec.2
    [{ exampleResult with issues := [errorIssue], issueCount := 1 }] r hr

/-- C8: RTL locale classification matches on the primary subtag
(text before the first hyphen, case-insensitively) against the fixed set:
isRTL "ar", isRTL "AR", isRTL "ar-EG" are all true; isRTL "en" and
isRTL "fr-CA" are false. -/
theorem rtl_classification_spec :
    RTLTransform.isRTL "ar" = true ∧
    RTLTransform.isRTL "AR" = true ∧
    RTLTransform.isRTL "ar-EG" = true ∧
    RTLTransform.isRTL "en" = false ∧
    RTLTransform.isRTL "fr-CA" = false := by
  decide

end LingoGuardian
